import Mathlib

/-!
A verification development for the keyword-stemming HTTP service in
`src/app.py`.  The service is a thin FastAPI orchestration layer: a
background startup task loads an embedding model, a KeyBERT keyphrase
extractor and a Snowball stemmer, updating a process-wide progress
dictionary; the `/extract` endpoint gates on readiness (via a FastAPI
dependency), validates the request, asks the extractor for `top_n * 2`
candidates and deduplicates them by stem.

Modelling decisions:
* The embedding/extraction/stemming capabilities are opaque third-party
  libraries; they are modelled as function parameters (`E` for the
  extractor, `S` for the stemmer).  The service never performs arithmetic
  on relevance scores — they flow through opaquely and only their relative
  order is ever asserted — so the Python floats are modelled by an ordered
  numeric type, `Int`.
* The process-wide `_progress` dictionary is modelled as an association
  list with Python `dict.update` semantics (existing keys keep their
  position and get the new value; new keys are appended).
* FastAPI evaluates the `Depends(get_models)` dependency before the
  handler body runs, and the dependency raises before body-field
  validation errors are reported; the pipeline `handleExtract` mirrors
  that order: readiness gate, then pydantic field validation, then the
  handler body.
-/

namespace App

/-- Relevance scores.  Python floats in the source; the service only
passes them through and compares nothing but their order, so an ordered
numeric type is a faithful model. -/
abbrev Score := Int

/-- Values stored in the process-wide `_progress` dictionary: strings
(`status`), integers (`percent`) and nested string-to-string maps
(`details`). -/
inductive PVal where
  | s (v : String)
  | n (v : Int)
  | d (v : List (String × String))
deriving DecidableEq, Repr

/-- A Python dictionary with `String` keys, as an association list in
insertion order. -/
abbrev PyDict := List (String × PVal)

/-- Assignment `m[k] = v` for a Python dict: replace the value in place if the key
is present, append the binding otherwise. -/
def dictSet (m : PyDict) (k : String) (v : PVal) : PyDict :=
  if k ∈ m.map Prod.fst then
    m.map (fun kv => if kv.1 = k then (k, v) else kv)
  else
    m ++ [(k, v)]

/-- Update `m.update(...)` for a Python dict: set each given binding in order. -/
def dictUpdate (m : PyDict) (kvs : List (String × PVal)) : PyDict :=
  kvs.foldl (fun acc kv => dictSet acc kv.1 kv.2) m

/-- Lookup `m.get(k)`: the value bound to `k`, if any. -/
def dictGet (m : PyDict) (k : String) : Option PVal :=
  (m.find? (fun kv => kv.1 = k)).map Prod.snd

/-- Initial record `_progress = {"status": "not_started", "percent": 0}`. -/
def initProgress : PyDict :=
  [("status", PVal.s "not_started"), ("percent", PVal.n 0)]

/-- Writer call `_progress.update(status="loading_embedder", percent=10)`. -/
def stepEmbedder (p : PyDict) : PyDict :=
  dictUpdate p [("status", PVal.s "loading_embedder"), ("percent", PVal.n 10)]

/-- Writer call `_progress.update(status="loading_kw_model", percent=50)`. -/
def stepKwModel (p : PyDict) : PyDict :=
  dictUpdate p [("status", PVal.s "loading_kw_model"), ("percent", PVal.n 50)]

/-- Writer call `_progress.update(status="loading_stemmer", percent=80)`. -/
def stepStemmer (p : PyDict) : PyDict :=
  dictUpdate p [("status", PVal.s "loading_stemmer"), ("percent", PVal.n 80)]

/-- Writer call `_progress.update(status="ready", percent=100)`. -/
def stepReady (p : PyDict) : PyDict :=
  dictUpdate p [("status", PVal.s "ready"), ("percent", PVal.n 100)]

/-- Writer call `_progress.update(status="error", percent=0, details={"error": str(exc)})`,
the `except` branch of `startup_event`. -/
def stepError (msg : String) (p : PyDict) : PyDict :=
  dictUpdate p
    [("status", PVal.s "error"), ("percent", PVal.n 0),
     ("details", PVal.d [("error", msg)])]

/-- The three operations inside the `try` block of `startup_event` that can
raise: loading the `SentenceTransformer`, constructing `KeyBERT`, and
constructing the `SnowballStemmer`.  (The `_progress.update` calls and the
log statements do not raise.) -/
inductive LoadFailure where
  | embedder
  | kwModel
  | stemmer
deriving DecidableEq, Repr

/-- The complete sequence of states taken by `_progress` during one run of
`startup_event`, for each possible outcome: `none` is a successful load,
`some f` means operation `f` raised (with message `msg`) and the `except`
branch recorded the failure.  Each load failure happens after the
`_progress.update` announcing that loading step, mirroring the statement
order in the source.  `startup_event` runs exactly once and is the only
writer of `_progress`, so this list is the whole lifetime of the record. -/
def startupTrace (fail : Option LoadFailure) (msg : String) : List PyDict :=
  let s0 := initProgress
  let s1 := stepEmbedder s0
  let s2 := stepKwModel s1
  let s3 := stepStemmer s2
  match fail with
  | some .embedder => [s0, s1, stepError msg s1]
  | some .kwModel => [s0, s1, s2, stepError msg s2]
  | some .stemmer => [s0, s1, s2, s3, stepError msg s3]
  | none => [s0, s1, s2, s3, stepReady s3]

/-- Constant `TOP_N_MAX = int(os.getenv("TOP_N_MAX", "100"))` at its default. -/
def TOP_N_MAX : Int := 100

/-- The raw JSON body of a `POST /extract` request, before pydantic
validation: `doc` is required, the three integer fields are optional. -/
structure RawStemRequest where
  doc : String
  top_n : Option Int := none
  min_ngram : Option Int := none
  max_ngram : Option Int := none

/-- A validated `StemRequest`: pydantic has checked
`top_n ∈ [1, TOP_N_MAX]`, `min_ngram ≥ 1`, `max_ngram ≥ 1` and filled in
the defaults `10`, `1`, `1`. -/
structure StemRequest where
  doc : String
  top_n : Int
  min_ngram : Int
  max_ngram : Int

/-- An HTTP outcome of the `/extract` pipeline: either a JSON list of
`(stem, score)` pairs (HTTP 200) or an error status code with a detail
string. -/
inductive ExtractResult where
  | ok (stems : List (String × Score))
  | httpError (code : Int) (detail : String)
deriving DecidableEq, Repr

/-- The HTTP status code of an `ExtractResult` (200 on success). -/
def ExtractResult.code : ExtractResult → Int
  | .ok _ => 200
  | .httpError c _ => c

/-- Pydantic field validation for `StemRequest`: apply the declared
defaults, then check the `ge`/`le` bounds of each `Field`.  Out-of-range
values are rejected with FastAPI's 422 validation error before the
handler body is reached. -/
def validateStemRequest (raw : RawStemRequest) : Except (Int × String) StemRequest :=
  let t := raw.top_n.getD 10
  let mn := raw.min_ngram.getD 1
  let mx := raw.max_ngram.getD 1
  if 1 ≤ t ∧ t ≤ TOP_N_MAX ∧ 1 ≤ mn ∧ 1 ≤ mx then
    .ok { doc := raw.doc, top_n := t, min_ngram := mn, max_ngram := mx }
  else
    .error (422, "validation error")

/-- The `get_models` dependency: raise 503 unless
`_progress.get("status") == "ready"`.  (The models themselves are global
handles in the source; here they are threaded as the parameters `E` and
`S` of the pipeline.) -/
def get_models (p : PyDict) : Except (Int × String) Unit :=
  if dictGet p "status" = some (PVal.s "ready") then
    .ok ()
  else
    .error (503, "Models are loading, please try again later.")

/-- The deduplication loop in the body of `stems`:

    seen = set(); results = []
    for word, score in raw:
        stem = stemmer.stem(word)
        if stem not in seen:
            seen.add(stem); results.append((stem, score))
        if len(results) >= request.top_n:
            break

`S` is `stemmer.stem`.  The `seen` set is modelled as the list of stems
added so far (only membership is used). -/
def dedupLoop (S : String → String) (top_n : Int) :
    List (String × Score) → List String → List (String × Score) →
    List (String × Score)
  | [], _, results => results
  | (word, score) :: rest, seen, results =>
    let st := S word
    let seen' := if st ∈ seen then seen else st :: seen
    let results' := if st ∈ seen then results else results ++ [(st, score)]
    if top_n ≤ (results'.length : Int) then results'
    else dedupLoop S top_n rest seen' results'

/-- The body of the `stems` handler, after the dependency and pydantic
validation have passed: reject with 400 if `min_ngram > max_ngram`,
otherwise ask the extractor `E` for `top_n * 2` candidates over
`(min_ngram, max_ngram)` and deduplicate them by stem.
`E doc (mn, mx) n` is `kw_model.extract_keywords(doc,
keyphrase_ngram_range=(mn, mx), top_n=n)`. -/
def stemsBody (E : String → Int × Int → Int → List (String × Score))
    (S : String → String) (r : StemRequest) : ExtractResult :=
  if r.min_ngram > r.max_ngram then
    .httpError 400 "min_ngram must be <= max_ngram"
  else
    let raw := E r.doc (r.min_ngram, r.max_ngram) (r.top_n * 2)
    .ok (dedupLoop S r.top_n raw [] [])

/-- The full `/extract` pipeline as FastAPI runs it: the
`Depends(get_models)` dependency is called first (its `HTTPException`
propagates before body-field validation errors are reported), then
pydantic validates the body fields, then the handler body runs. -/
def handleExtract (E : String → Int × Int → Int → List (String × Score))
    (S : String → String) (p : PyDict) (raw : RawStemRequest) : ExtractResult :=
  match get_models p with
  | .error e => .httpError e.1 e.2
  | .ok _ =>
    match validateStemRequest raw with
    | .error e => .httpError e.1 e.2
    | .ok r => stemsBody E S r

/-- The `/health` endpoint: a fixed 200 response with payload
`{"status": "ok"}`, independent of readiness. -/
def health : Int × List (String × String) := (200, [("status", "ok")])

/-- The response of the `/status` endpoint on progress record `p`:
`status` and `percent` are read by key (a `KeyError` — modelled as
`none` — if either is missing or of the wrong shape), and `details`
collects every other binding of the record. -/
structure StatusResponse where
  status : String
  percent : Int
  details : PyDict
deriving DecidableEq, Repr

/-- The `/status` endpoint body. -/
def statusEndpoint (p : PyDict) : Option StatusResponse :=
  match dictGet p "status", dictGet p "percent" with
  | some (PVal.s st), some (PVal.n pc) =>
    some { status := st, percent := pc,
           details := p.filter (fun kv => ¬ (kv.1 = "status" ∨ kv.1 = "percent")) }
  | _, _ => none

/-- The spec-side description of deduplication, modelled from the spec's
words ("For each candidate in descending-score order: compute its stem; if
the stem has not been emitted yet, emit (stem, score)"), with the emitted
list as accumulator.  It performs no early stopping; the spec's "stop once
top_n unique stems have been emitted" is `List.take top_n` of its result.
Used only as the comparison point for the refinement claim about the
handler's loop. -/
def keepFirstByStem (S : String → String) :
    List (String × Score) → List (String × Score) → List (String × Score)
  | [], acc => acc
  | (w, sc) :: rest, acc =>
    if S w ∈ acc.map Prod.fst then keepFirstByStem S rest acc
    else keepFirstByStem S rest (acc ++ [(S w, sc)])

/-- Unfolding of one iteration of the handler's loop. -/
theorem dedupLoop_cons (S : String → String) (top_n : Int) (w : String) (sc : Score)
    (rest : List (String × Score)) (seen : List String) (results : List (String × Score)) :
    dedupLoop S top_n ((w, sc) :: rest) seen results =
      if S w ∈ seen then
        (if top_n ≤ (results.length : Int) then results
         else dedupLoop S top_n rest seen results)
      else
        (if top_n ≤ (results.length : Int) + 1 then results ++ [(S w, sc)]
         else dedupLoop S top_n rest (S w :: seen) (results ++ [(S w, sc)])) := by
  by_cases hm : S w ∈ seen <;> simp [dedupLoop, hm]

/-- The loop never returns more than `top_n` entries, provided it starts
below the bound. -/
theorem dedupLoop_length_le (S : String → String) (n : Int)
    (raw : List (String × Score)) :
    ∀ (seen : List String) (results : List (String × Score)),
      (results.length : Int) < n →
      ((dedupLoop S n raw seen results).length : Int) ≤ n := by
  induction raw with
  | nil =>
    intro seen results h
    simp only [dedupLoop]
    omega
  | cons q rest ih =>
    obtain ⟨w, sc⟩ := q
    intro seen results h
    rw [dedupLoop_cons]
    by_cases hm : S w ∈ seen
    · rw [if_pos hm, if_neg (by omega)]
      exact ih seen results h
    · rw [if_neg hm]
      by_cases hstop : n ≤ (results.length : Int) + 1
      · rw [if_pos hstop]
        simp only [List.length_append, List.length_cons, List.length_nil]
        push_cast
        omega
      · rw [if_neg hstop]
        apply ih
        simp only [List.length_append, List.length_cons, List.length_nil]
        push_cast
        omega

/-- Every stem appearing in `results` is recorded in `seen`, and the
result stems are pairwise distinct: the loop emits each stem at most
once. -/
theorem dedupLoop_nodup (S : String → String) (n : Int)
    (raw : List (String × Score)) :
    ∀ (seen : List String) (results : List (String × Score)),
      (∀ q ∈ results, q.1 ∈ seen) → (results.map Prod.fst).Nodup →
      ((dedupLoop S n raw seen results).map Prod.fst).Nodup := by
  induction raw with
  | nil =>
    intro seen results _ h2
    simpa only [dedupLoop] using h2
  | cons q rest ih =>
    obtain ⟨w, sc⟩ := q
    intro seen results h1 h2
    rw [dedupLoop_cons]
    by_cases hm : S w ∈ seen
    · rw [if_pos hm]
      split
      · exact h2
      · exact ih seen results h1 h2
    · have hnotin : S w ∉ results.map Prod.fst := by
        intro hx
        obtain ⟨q, hq, hq2⟩ := List.mem_map.mp hx
        exact hm (hq2 ▸ h1 q hq)
      have h1' : ∀ q ∈ results ++ [(S w, sc)], q.1 ∈ S w :: seen := by
        intro q hq
        rcases List.mem_append.mp hq with hq | hq
        · exact List.mem_cons_of_mem _ (h1 q hq)
        · simp only [List.mem_singleton] at hq
          subst hq
          exact List.mem_cons_self _ _
      have h2' : ((results ++ [(S w, sc)]).map Prod.fst).Nodup := by
        simp only [List.map_append, List.map_cons, List.map_nil]
        refine List.Nodup.append h2 (List.nodup_singleton _) ?_
        intro a ha hb
        simp only [List.mem_singleton] at hb
        exact hnotin (hb ▸ ha)
      rw [if_neg hm]
      split
      · exact h2'
      · exact ih _ _ h1' h2'

/-- The scores of the loop's output are a subsequence of the scores of
`results ++ raw`, in order: the loop only ever drops candidates. -/
theorem dedupLoop_scores_sublist (S : String → String) (n : Int)
    (raw : List (String × Score)) :
    ∀ (seen : List String) (results : List (String × Score)),
      ((dedupLoop S n raw seen results).map Prod.snd).Sublist
        ((results ++ raw).map Prod.snd) := by
  induction raw with
  | nil =>
    intro seen results
    simp [dedupLoop]
  | cons q rest ih =>
    obtain ⟨w, sc⟩ := q
    intro seen results
    rw [dedupLoop_cons]
    have hemb : ((results ++ rest).map Prod.snd).Sublist
        ((results ++ (w, sc) :: rest).map Prod.snd) := by
      simp only [List.map_append, List.map_cons]
      exact List.Sublist.append_left (List.sublist_cons_self _ _) _
    by_cases hm : S w ∈ seen
    · rw [if_pos hm]
      split
      · simpa only [List.map_append, List.map_cons] using
          List.sublist_append_left (results.map Prod.snd) (sc :: rest.map Prod.snd)
      · exact (ih seen results).trans hemb
    · rw [if_neg hm]
      have hkey : ((results ++ [(S w, sc)]) ++ rest).map Prod.snd =
          (results ++ (w, sc) :: rest).map Prod.snd := by
        simp
      split
      · calc ((results ++ [(S w, sc)]).map Prod.snd).Sublist
              (((results ++ [(S w, sc)]) ++ rest).map Prod.snd) := by
              simpa only [List.map_append] using
                List.sublist_append_left ((results ++ [(S w, sc)]).map Prod.snd)
                  (rest.map Prod.snd)
          _ = (results ++ (w, sc) :: rest).map Prod.snd := hkey
      · calc ((dedupLoop S n rest (S w :: seen) (results ++ [(S w, sc)])).map Prod.snd).Sublist
              (((results ++ [(S w, sc)]) ++ rest).map Prod.snd) := ih _ _
          _ = (results ++ (w, sc) :: rest).map Prod.snd := hkey

/-- Lemma: `keepFirstByStem` only ever appends to its accumulator. -/
theorem keepFirstByStem_extends (S : String → String)
    (raw : List (String × Score)) :
    ∀ acc, ∃ t, keepFirstByStem S raw acc = acc ++ t := by
  induction raw with
  | nil =>
    intro acc
    exact ⟨[], by simp [keepFirstByStem]⟩
  | cons q rest ih =>
    obtain ⟨w, sc⟩ := q
    intro acc
    by_cases hm : S w ∈ acc.map Prod.fst
    · obtain ⟨t, ht⟩ := ih acc
      exact ⟨t, by simp [keepFirstByStem, hm, ht]⟩
    · obtain ⟨t, ht⟩ := ih (acc ++ [(S w, sc)])
      exact ⟨(S w, sc) :: t, by simp [keepFirstByStem, hm, ht]⟩

/-- The handler's loop computes exactly the spec-side deduplication,
truncated at `top_n`: first occurrence per stem wins, with its score, and
emission stops at `top_n` unique stems.  The invariant relates the `seen`
set to the stems emitted so far. -/
theorem dedupLoop_eq_keepFirst (S : String → String) (n : Int)
    (raw : List (String × Score)) :
    ∀ (seen : List String) (results : List (String × Score)),
      (∀ st, st ∈ seen ↔ st ∈ results.map Prod.fst) →
      (results.length : Int) < n →
      dedupLoop S n raw seen results = (keepFirstByStem S raw results).take n.toNat := by
  induction raw with
  | nil =>
    intro seen results _ hlen
    simp only [dedupLoop, keepFirstByStem]
    rw [List.take_of_length_le (by omega)]
  | cons q rest ih =>
    obtain ⟨w, sc⟩ := q
    intro seen results hiff hlen
    rw [dedupLoop_cons]
    by_cases hm : S w ∈ seen
    · have hm' : S w ∈ results.map Prod.fst := (hiff _).mp hm
      rw [if_pos hm, if_neg (by omega)]
      simp only [keepFirstByStem, hm', if_pos]
      exact ih seen results hiff hlen
    · have hm' : S w ∉ results.map Prod.fst := fun hx => hm ((hiff _).mpr hx)
      rw [if_neg hm]
      simp only [keepFirstByStem, hm', if_neg, not_false_iff]
      by_cases hstop : n ≤ (results.length : Int) + 1
      · rw [if_pos hstop]
        obtain ⟨t, ht⟩ := keepFirstByStem_extends S rest (results ++ [(S w, sc)])
        rw [ht]
        have hlen' : (results ++ [(S w, sc)]).length = n.toNat := by
          simp only [List.length_append, List.length_cons, List.length_nil]
          omega
        rw [← hlen', List.take_left]
      · rw [if_neg hstop]
        apply ih
        · intro st
          simp only [List.mem_cons, List.map_append, List.map_cons, List.map_nil,
            List.mem_append, List.mem_singleton, hiff st]
          tauto
        · simp only [List.length_append, List.length_cons, List.length_nil]
          push_cast
          omega

/-- A validated request satisfies the pydantic bounds and the declared
defaults. -/
theorem validateStemRequest_ok (raw : RawStemRequest) (r : StemRequest)
    (h : validateStemRequest raw = .ok r) :
    1 ≤ r.top_n ∧ r.top_n ≤ TOP_N_MAX ∧ 1 ≤ r.min_ngram ∧ 1 ≤ r.max_ngram ∧
    r.top_n = raw.top_n.getD 10 ∧ r.min_ngram = raw.min_ngram.getD 1 ∧
    r.max_ngram = raw.max_ngram.getD 1 ∧ r.doc = raw.doc := by
  simp only [validateStemRequest] at h
  split at h
  · rename_i hcond
    cases h
    exact ⟨hcond.1, hcond.2.1, hcond.2.2.1, hcond.2.2.2, rfl, rfl, rfl, rfl⟩
  · cases h

/-- The progress record once `startup_event` has completed successfully. -/
def readyProgress : PyDict :=
  stepReady (stepStemmer (stepKwModel (stepEmbedder initProgress)))

/-- The progress record after operation `f` of `startup_event` raised with
message `msg`: the last element of the corresponding startup trace. -/
def errorState (f : LoadFailure) (msg : String) : PyDict :=
  match f with
  | .embedder => stepError msg (stepEmbedder initProgress)
  | .kwModel => stepError msg (stepKwModel (stepEmbedder initProgress))
  | .stemmer => stepError msg (stepStemmer (stepKwModel (stepEmbedder initProgress)))

/-- The `(status, percent)` pair a client observes in a progress record
(defaults chosen outside the value range, for totality; every reachable
record has both keys of the right shape). -/
def observe (p : PyDict) : String × Int :=
  ((match dictGet p "status" with | some (PVal.s v) => v | _ => ""),
   (match dictGet p "percent" with | some (PVal.n v) => v | _ => -1))

/-- The allowed transitions of the readiness machine described by the
spec: forward through
not_started(0) → loading_embedder(10) → loading_kw_model(50) →
loading_stemmer(80) → ready(100), or a jump to error(0) from any
non-terminal state. -/
def ReadyStep (a b : String × Int) : Prop :=
  (a = ("not_started", 0) ∧ b = ("loading_embedder", 10)) ∨
  (a = ("loading_embedder", 10) ∧ b = ("loading_kw_model", 50)) ∨
  (a = ("loading_kw_model", 50) ∧ b = ("loading_stemmer", 80)) ∨
  (a = ("loading_stemmer", 80) ∧ b = ("ready", 100)) ∨
  (a.1 ≠ "ready" ∧ a.1 ≠ "error" ∧ b = ("error", 0))

instance : DecidableRel ReadyStep := fun a b =>
  inferInstanceAs (Decidable
    ((a = ("not_started", 0) ∧ b = ("loading_embedder", 10)) ∨
     (a = ("loading_embedder", 10) ∧ b = ("loading_kw_model", 50)) ∨
     (a = ("loading_kw_model", 50) ∧ b = ("loading_stemmer", 80)) ∨
     (a = ("loading_stemmer", 80) ∧ b = ("ready", 100)) ∨
     (a.1 ≠ "ready" ∧ a.1 ≠ "error" ∧ b = ("error", 0))))

/-- States `ready` and `error` are the terminal states of the readiness
machine. -/
def isTerminal (x : String × Int) : Prop :=
  x.1 = "ready" ∨ x.1 = "error"

instance (x : String × Int) : Decidable (isTerminal x) :=
  inferInstanceAs (Decidable (x.1 = "ready" ∨ x.1 = "error"))

/-- A concrete extractor used to witness the general theorems: candidates
in descending-score order with a stem collision between the first two. -/
def witExtractor : String → Int × Int → Int → List (String × Score) :=
  fun _ _ _ => [("aa", 5), ("ab", 4), ("b", 2)]

/-- A concrete stemmer used to witness the general theorems: maps
"aa" and "ab" to the common stem "a". -/
def witStemmer (w : String) : String :=
  if w = "aa" ∨ w = "ab" then "a" else w

/-- An extractor returning nothing, for witnesses that never reach the
extractor. -/
def emptyExtractor : String → Int × Int → Int → List (String × Score) :=
  fun _ _ _ => []

/-- A request body with `min_ngram > max_ngram` (all fields within the
pydantic per-field bounds). -/
def rawMinGtMax : RawStemRequest :=
  { doc := "doc", min_ngram := some 2, max_ngram := some 1 }

/-- The readiness gate passes exactly when the progress record says
`ready`. -/
theorem get_models_ready {p : PyDict}
    (h : dictGet p "status" = some (PVal.s "ready")) : get_models p = .ok () := by
  simp [get_models, h]

/-- When the gate passes and validation succeeds, the pipeline runs the
handler body on the validated request. -/
theorem handleExtract_ready (E : String → Int × Int → Int → List (String × Score))
    (S : String → String) (p : PyDict) (raw : RawStemRequest) (r : StemRequest)
    (hready : dictGet p "status" = some (PVal.s "ready"))
    (hval : validateStemRequest raw = .ok r) :
    handleExtract E S p raw = stemsBody E S r := by
  unfold handleExtract
  rw [get_models_ready hready, hval]

/-- On an n-gram-consistent request, the handler body returns the
deduplicated candidates. -/
theorem stemsBody_ok (E : String → Int × Int → Int → List (String × Score))
    (S : String → String) (r : StemRequest) (hng : r.min_ngram ≤ r.max_ngram) :
    stemsBody E S r =
      .ok (dedupLoop S r.top_n (E r.doc (r.min_ngram, r.max_ngram) (r.top_n * 2)) [] []) := by
  unfold stemsBody
  rw [if_neg (by omega : ¬ r.min_ngram > r.max_ngram)]

/-- Claim C1: for every `/extract` request made while readiness is
`ready` (that passes validation and the n-gram check), the returned stems
list has at most `top_n` entries, its stem strings are pairwise distinct,
and — given that the extractor returns candidates in descending-score
order — its scores are in non-increasing order. -/
theorem extract_result_shape (E : String → Int × Int → Int → List (String × Score))
    (S : String → String) (p : PyDict) (raw : RawStemRequest) (r : StemRequest)
    (hready : dictGet p "status" = some (PVal.s "ready"))
    (hval : validateStemRequest raw = .ok r)
    (hng : r.min_ngram ≤ r.max_ngram)
    (hsorted : (E r.doc (r.min_ngram, r.max_ngram) (r.top_n * 2)).Pairwise
      (fun a b => b.2 ≤ a.2)) :
    handleExtract E S p raw =
      .ok (dedupLoop S r.top_n (E r.doc (r.min_ngram, r.max_ngram) (r.top_n * 2)) [] []) ∧
    ((dedupLoop S r.top_n (E r.doc (r.min_ngram, r.max_ngram) (r.top_n * 2)) [] []).length :
      Int) ≤ r.top_n ∧
    ((dedupLoop S r.top_n (E r.doc (r.min_ngram, r.max_ngram) (r.top_n * 2)) [] []).map
      Prod.fst).Nodup ∧
    ((dedupLoop S r.top_n (E r.doc (r.min_ngram, r.max_ngram) (r.top_n * 2)) [] []).map
      Prod.snd).Pairwise (fun a b => b ≤ a) := by
  obtain ⟨h1, -, -, -, -, -, -, -⟩ := validateStemRequest_ok raw r hval
  refine ⟨?_, ?_, ?_, ?_⟩
  · rw [handleExtract_ready E S p raw r hready hval, stemsBody_ok E S r hng]
  · exact dedupLoop_length_le S r.top_n _ [] [] (by simp only [List.length_nil]; omega)
  · exact dedupLoop_nodup S r.top_n _ [] [] (by simp) List.nodup_nil
  · have hsub := dedupLoop_scores_sublist S r.top_n
      (E r.doc (r.min_ngram, r.max_ngram) (r.top_n * 2)) [] []
    simp only [List.nil_append] at hsub
    exact List.Pairwise.sublist hsub (List.pairwise_map.mpr hsorted)

/-- A concrete request body used by witnesses: `top_n = 2`, defaults
elsewhere. -/
def rawWit : RawStemRequest := { doc := "d", top_n := some 2 }

/-- The validated form of `rawWit`. -/
def reqWit : StemRequest := { doc := "d", top_n := 2, min_ngram := 1, max_ngram := 1 }

/-- Witness for claim C1 at a concrete ready state, extractor, stemmer
and request. -/
theorem extract_result_shape_witness :
    dictGet readyProgress "status" = some (PVal.s "ready") ∧
    validateStemRequest rawWit = .ok reqWit ∧
    reqWit.min_ngram ≤ reqWit.max_ngram ∧
    (witExtractor reqWit.doc (reqWit.min_ngram, reqWit.max_ngram) (reqWit.top_n * 2)).Pairwise
      (fun a b => b.2 ≤ a.2) ∧
    (handleExtract witExtractor witStemmer readyProgress rawWit =
      .ok (dedupLoop witStemmer reqWit.top_n
        (witExtractor reqWit.doc (reqWit.min_ngram, reqWit.max_ngram) (reqWit.top_n * 2))
        [] []) ∧
    ((dedupLoop witStemmer reqWit.top_n
        (witExtractor reqWit.doc (reqWit.min_ngram, reqWit.max_ngram) (reqWit.top_n * 2))
        [] []).length : Int) ≤ reqWit.top_n ∧
    ((dedupLoop witStemmer reqWit.top_n
        (witExtractor reqWit.doc (reqWit.min_ngram, reqWit.max_ngram) (reqWit.top_n * 2))
        [] []).map Prod.fst).Nodup ∧
    ((dedupLoop witStemmer reqWit.top_n
        (witExtractor reqWit.doc (reqWit.min_ngram, reqWit.max_ngram) (reqWit.top_n * 2))
        [] []).map Prod.snd).Pairwise (fun a b => b ≤ a)) :=
  ⟨rfl, rfl, by decide, by decide,
   extract_result_shape witExtractor witStemmer readyProgress rawWit reqWit rfl rfl
     (by decide) (by decide)⟩

/-- Claim C2 counterexample: a request with `min_ngram > max_ngram` sent
while the progress record is still at its initial (not ready) state gets
a 503, not a 400-class error — the claim's "regardless of the readiness
state" fails on the code. -/
theorem min_gt_max_not_always_400 :
    rawMinGtMax.min_ngram = some 2 ∧ rawMinGtMax.max_ngram = some 1 ∧
    handleExtract emptyExtractor witStemmer initProgress rawMinGtMax =
      .httpError 503 "Models are loading, please try again later." ∧
    ¬ (400 ≤ (handleExtract emptyExtractor witStemmer initProgress rawMinGtMax).code ∧
       (handleExtract emptyExtractor witStemmer initProgress rawMinGtMax).code < 500) := by
  decide

/-- Claim C2 (amended): for every `/extract` request with
`min_ngram > max_ngram` made while readiness is `ready` (and passing
per-field validation), the response is the 400 error. -/
theorem min_gt_max_400_when_ready (E : String → Int × Int → Int → List (String × Score))
    (S : String → String) (p : PyDict) (raw : RawStemRequest) (r : StemRequest)
    (hready : dictGet p "status" = some (PVal.s "ready"))
    (hval : validateStemRequest raw = .ok r)
    (hgt : r.min_ngram > r.max_ngram) :
    handleExtract E S p raw = .httpError 400 "min_ngram must be <= max_ngram" := by
  rw [handleExtract_ready E S p raw r hready hval]
  unfold stemsBody
  rw [if_pos hgt]

/-- The validated form of `rawMinGtMax`. -/
def reqMinGtMax : StemRequest :=
  { doc := "doc", top_n := 10, min_ngram := 2, max_ngram := 1 }

/-- Witness for the amended claim C2 at a concrete ready state and
request. -/
theorem min_gt_max_400_when_ready_witness :
    dictGet readyProgress "status" = some (PVal.s "ready") ∧
    validateStemRequest rawMinGtMax = .ok reqMinGtMax ∧
    reqMinGtMax.min_ngram > reqMinGtMax.max_ngram ∧
    handleExtract emptyExtractor witStemmer readyProgress rawMinGtMax =
      .httpError 400 "min_ngram must be <= max_ngram" :=
  ⟨rfl, rfl, by decide,
   min_gt_max_400_when_ready emptyExtractor witStemmer readyProgress rawMinGtMax
     reqMinGtMax rfl rfl (by decide)⟩

/-- Claim C3: whenever the readiness status is anything other than
`ready`, every `/extract` request is answered with the 503 error, while
`/health` still returns the fixed ok payload with a 200. -/
theorem not_ready_503_health_ok (p : PyDict)
    (E : String → Int × Int → Int → List (String × Score)) (S : String → String)
    (raw : RawStemRequest)
    (hnr : dictGet p "status" ≠ some (PVal.s "ready")) :
    handleExtract E S p raw = .httpError 503 "Models are loading, please try again later." ∧
    health = (200, [("status", "ok")]) := by
  refine ⟨?_, rfl⟩
  unfold handleExtract get_models
  rw [if_neg hnr]

/-- Witness for claim C3 at the initial progress record. -/
theorem not_ready_503_health_ok_witness :
    dictGet initProgress "status" ≠ some (PVal.s "ready") ∧
    (handleExtract emptyExtractor witStemmer initProgress rawWit =
      .httpError 503 "Models are loading, please try again later." ∧
    health = (200, [("status", "ok")])) :=
  ⟨by decide,
   not_ready_503_health_ok initProgress emptyExtractor witStemmer rawWit (by decide)⟩

/-- Claim C4: the handler's loop emits, for each stem, exactly the first
candidate (in the extractor's order) whose stem equals it, carrying that
candidate's score, and stops after `top_n` unique stems: it equals the
spec-side `keepFirstByStem` truncated at `top_n`. -/
theorem dedup_keeps_first_occurrence (S : String → String)
    (raw : List (String × Score)) (top_n : Int) (h : 1 ≤ top_n) :
    dedupLoop S top_n raw [] [] = (keepFirstByStem S raw []).take top_n.toNat :=
  dedupLoop_eq_keepFirst S top_n raw [] [] (by simp)
    (by simp only [List.length_nil]; omega)

/-- Witness for claim C4 on a concrete candidate list with a stem
collision. -/
theorem dedup_keeps_first_occurrence_witness :
    (1 : Int) ≤ 2 ∧
    dedupLoop witStemmer 2 [("aa", 5), ("ab", 4), ("aa", 3), ("b", 2)] [] [] =
      (keepFirstByStem witStemmer [("aa", 5), ("ab", 4), ("aa", 3), ("b", 2)] []).take
        (2 : Int).toNat :=
  ⟨by decide,
   dedup_keeps_first_occurrence witStemmer [("aa", 5), ("ab", 4), ("aa", 3), ("b", 2)] 2
     (by decide)⟩

/-- Claim C5: a valid, readiness-gated `/extract` request is answered
from the pool `E doc (min_ngram, max_ngram) (top_n * 2)` — the extractor
is consulted exactly once, for `top_n * 2` candidates over the request's
n-gram range — and the deduplicated list is returned as-is, truncated at
`top_n` but never retried or refilled when shorter. -/
theorem extract_oversamples_no_retry
    (E : String → Int × Int → Int → List (String × Score)) (S : String → String)
    (p : PyDict) (raw : RawStemRequest) (r : StemRequest)
    (hready : dictGet p "status" = some (PVal.s "ready"))
    (hval : validateStemRequest raw = .ok r)
    (hng : r.min_ngram ≤ r.max_ngram) :
    handleExtract E S p raw =
      .ok ((keepFirstByStem S (E r.doc (r.min_ngram, r.max_ngram) (r.top_n * 2)) []).take
        r.top_n.toNat) := by
  obtain ⟨h1, -, -, -, -, -, -, -⟩ := validateStemRequest_ok raw r hval
  rw [handleExtract_ready E S p raw r hready hval, stemsBody_ok E S r hng,
    dedupLoop_eq_keepFirst S r.top_n _ [] [] (by simp)
      (by simp only [List.length_nil]; omega)]

/-- Witness for claim C5: with `top_n = 2` the pool of `4` candidates
dedups to two stems, returned as-is. -/
theorem extract_oversamples_no_retry_witness :
    dictGet readyProgress "status" = some (PVal.s "ready") ∧
    validateStemRequest rawWit = .ok reqWit ∧
    reqWit.min_ngram ≤ reqWit.max_ngram ∧
    handleExtract witExtractor witStemmer readyProgress rawWit =
      .ok ((keepFirstByStem witStemmer
        (witExtractor reqWit.doc (reqWit.min_ngram, reqWit.max_ngram) (reqWit.top_n * 2))
        []).take reqWit.top_n.toNat) :=
  ⟨rfl, rfl, by decide,
   extract_oversamples_no_retry witExtractor witStemmer readyProgress rawWit reqWit rfl rfl
     (by decide)⟩

/-- Claim C6: whichever load operation raises, the exception is caught
(the startup task still produces a complete trace), the final progress
record is `error` at percent 0 with the message in its details, and every
subsequent `/extract` request against that record — which persists for
the rest of the process, since the startup task is the only writer and
never retries — receives the 503 error. -/
theorem startup_failure_is_terminal_503 (f : LoadFailure) (msg : String)
    (E : String → Int × Int → Int → List (String × Score)) (S : String → String)
    (raw : RawStemRequest) :
    (startupTrace (some f) msg).getLast? = some (errorState f msg) ∧
    dictGet (errorState f msg) "status" = some (PVal.s "error") ∧
    dictGet (errorState f msg) "percent" = some (PVal.n 0) ∧
    dictGet (errorState f msg) "details" = some (PVal.d [("error", msg)]) ∧
    handleExtract E S (errorState f msg) raw =
      .httpError 503 "Models are loading, please try again later." := by
  cases f <;> exact ⟨rfl, rfl, rfl, rfl, rfl⟩

/-- Witness for claim C6 at a concrete failure of the embedder load. -/
theorem startup_failure_is_terminal_503_witness :
    (startupTrace (some .embedder) "boom").getLast? = some (errorState .embedder "boom") ∧
    dictGet (errorState .embedder "boom") "status" = some (PVal.s "error") ∧
    dictGet (errorState .embedder "boom") "percent" = some (PVal.n 0) ∧
    dictGet (errorState .embedder "boom") "details" = some (PVal.d [("error", "boom")]) ∧
    handleExtract emptyExtractor witStemmer (errorState .embedder "boom") rawWit =
      .httpError 503 "Models are loading, please try again later." :=
  startup_failure_is_terminal_503 .embedder "boom" emptyExtractor witStemmer rawWit

/-- Claim C7: along every possible startup trace, the observed
`(status, percent)` pairs step forward through
not_started(0) → loading_embedder(10) → loading_kw_model(50) →
loading_stemmer(80) → ready(100), except for a single possible jump to
error(0); every step either keeps percent non-decreasing or is the error
jump; no state before the last is terminal, and the last is terminal —
no mutation follows a terminal state. -/
theorem startup_state_machine (fail : Option LoadFailure) (msg : String) :
    List.Chain' ReadyStep ((startupTrace fail msg).map observe) ∧
    (∀ x ∈ ((startupTrace fail msg).map observe).dropLast, ¬ isTerminal x) ∧
    (∃ x, ((startupTrace fail msg).map observe).getLast? = some x ∧ isTerminal x) ∧
    (∀ a b, ReadyStep a b → a.2 ≤ b.2 ∨ b = ("error", 0)) := by
  have hmono : ∀ a b : String × Int, ReadyStep a b → a.2 ≤ b.2 ∨ b = ("error", 0) := by
    intro a b h
    rcases h with ⟨ha, hb⟩ | ⟨ha, hb⟩ | ⟨ha, hb⟩ | ⟨ha, hb⟩ | ⟨-, -, hb⟩
    · subst ha; subst hb; left; norm_num
    · subst ha; subst hb; left; norm_num
    · subst ha; subst hb; left; norm_num
    · subst ha; subst hb; left; norm_num
    · subst hb; right; rfl
  rcases fail with - | f
  · have htr : (startupTrace none msg).map observe =
        [("not_started", 0), ("loading_embedder", 10), ("loading_kw_model", 50),
         ("loading_stemmer", 80), ("ready", 100)] := rfl
    rw [htr]
    refine ⟨?_, by decide, ⟨("ready", 100), rfl, by decide⟩, hmono⟩
    simp only [List.chain'_cons]
    exact ⟨by decide, by decide, by decide, by decide, List.chain'_singleton _⟩
  · cases f with
    | embedder =>
      have htr : (startupTrace (some .embedder) msg).map observe =
          [("not_started", 0), ("loading_embedder", 10), ("error", 0)] := rfl
      rw [htr]
      refine ⟨?_, by decide, ⟨("error", 0), rfl, by decide⟩, hmono⟩
      simp only [List.chain'_cons]
      exact ⟨by decide, by decide, List.chain'_singleton _⟩
    | kwModel =>
      have htr : (startupTrace (some .kwModel) msg).map observe =
          [("not_started", 0), ("loading_embedder", 10), ("loading_kw_model", 50),
           ("error", 0)] := rfl
      rw [htr]
      refine ⟨?_, by decide, ⟨("error", 0), rfl, by decide⟩, hmono⟩
      simp only [List.chain'_cons]
      exact ⟨by decide, by decide, by decide, List.chain'_singleton _⟩
    | stemmer =>
      have htr : (startupTrace (some .stemmer) msg).map observe =
          [("not_started", 0), ("loading_embedder", 10), ("loading_kw_model", 50),
           ("loading_stemmer", 80), ("error", 0)] := rfl
      rw [htr]
      refine ⟨?_, by decide, ⟨("error", 0), rfl, by decide⟩, hmono⟩
      simp only [List.chain'_cons]
      exact ⟨by decide, by decide, by decide, by decide, List.chain'_singleton _⟩

/-- Witness for claim C7 on the trace that fails at the embedder load. -/
theorem startup_state_machine_witness :
    List.Chain' ReadyStep ((startupTrace (some .embedder) "boom").map observe) ∧
    (∀ x ∈ ((startupTrace (some .embedder) "boom").map observe).dropLast, ¬ isTerminal x) ∧
    (∃ x, ((startupTrace (some .embedder) "boom").map observe).getLast? = some x ∧
      isTerminal x) ∧
    (∀ a b, ReadyStep a b → a.2 ≤ b.2 ∨ b = ("error", 0)) :=
  startup_state_machine (some .embedder) "boom"

/-- Claim C8: a request whose `top_n` is below 1 or above `TOP_N_MAX` is
rejected by field validation, and the pipeline never returns a stems
list for it (the handler body is never reached); conversely the handler
body only ever runs on requests with `1 ≤ top_n ≤ TOP_N_MAX`, with the
default `10` when the field is omitted. -/
theorem top_n_bounds_enforced (raw : RawStemRequest)
    (E : String → Int × Int → Int → List (String × Score)) (S : String → String)
    (p : PyDict) :
    (∀ t : Int, raw.top_n = some t → (t < 1 ∨ TOP_N_MAX < t) →
      validateStemRequest raw = .error (422, "validation error") ∧
      ∀ l, handleExtract E S p raw ≠ .ok l) ∧
    (∀ r, validateStemRequest raw = .ok r →
      1 ≤ r.top_n ∧ r.top_n ≤ TOP_N_MAX ∧ (raw.top_n = none → r.top_n = 10)) := by
  constructor
  · intro t ht hout
    have hval : validateStemRequest raw = .error (422, "validation error") := by
      simp only [validateStemRequest, ht, Option.getD_some]
      rw [if_neg ?_]
      simp only [TOP_N_MAX] at hout ⊢
      omega
    refine ⟨hval, fun l => ?_⟩
    unfold handleExtract
    cases hg : get_models p with
    | error e => simp
    | ok u => rw [hval]; simp
  · intro r hr
    obtain ⟨h1, h2, -, -, h5, -, -, -⟩ := validateStemRequest_ok raw r hr
    refine ⟨h1, h2, fun hn => ?_⟩
    rw [h5, hn]
    rfl

/-- A request body with an out-of-range `top_n`. -/
def rawTopNTooBig : RawStemRequest := { doc := "d", top_n := some 101 }

/-- Witness for claim C8 at `top_n = 101 > TOP_N_MAX = 100`. -/
theorem top_n_bounds_enforced_witness :
    (∀ t : Int, rawTopNTooBig.top_n = some t → (t < 1 ∨ TOP_N_MAX < t) →
      validateStemRequest rawTopNTooBig = .error (422, "validation error") ∧
      ∀ l, handleExtract emptyExtractor witStemmer initProgress rawTopNTooBig ≠ .ok l) ∧
    (∀ r, validateStemRequest rawTopNTooBig = .ok r →
      1 ≤ r.top_n ∧ r.top_n ≤ TOP_N_MAX ∧ (rawTopNTooBig.top_n = none → r.top_n = 10)) :=
  top_n_bounds_enforced rawTopNTooBig emptyExtractor witStemmer initProgress

/-- Claim C9: when readiness is not `ready` and the request also has
`min_ngram > max_ngram`, the readiness gate (a FastAPI dependency,
evaluated before the handler body) wins: the response is the 503 error,
not a 400. -/
theorem gate_precedes_ngram_validation (p : PyDict)
    (E : String → Int × Int → Int → List (String × Score)) (S : String → String)
    (raw : RawStemRequest) (mn mx : Int)
    (hnr : dictGet p "status" ≠ some (PVal.s "ready"))
    (_hmn : raw.min_ngram = some mn) (_hmx : raw.max_ngram = some mx) (_hgt : mn > mx) :
    handleExtract E S p raw = .httpError 503 "Models are loading, please try again later." ∧
    (handleExtract E S p raw).code ≠ 400 := by
  have h : handleExtract E S p raw =
      .httpError 503 "Models are loading, please try again later." := by
    unfold handleExtract get_models
    rw [if_neg hnr]
  rw [h]
  exact ⟨rfl, by decide⟩

/-- Witness for claim C9 at the initial progress record and the
`min_ngram = 2 > 1 = max_ngram` request. -/
theorem gate_precedes_ngram_validation_witness :
    dictGet initProgress "status" ≠ some (PVal.s "ready") ∧
    rawMinGtMax.min_ngram = some 2 ∧ rawMinGtMax.max_ngram = some 1 ∧ (2 : Int) > 1 ∧
    (handleExtract emptyExtractor witStemmer initProgress rawMinGtMax =
      .httpError 503 "Models are loading, please try again later." ∧
    (handleExtract emptyExtractor witStemmer initProgress rawMinGtMax).code ≠ 400) :=
  ⟨by decide, rfl, rfl, by decide,
   gate_precedes_ngram_validation initProgress emptyExtractor witStemmer rawMinGtMax 2 1
     (by decide) rfl rfl (by decide)⟩

/-- Claim C10: every progress record the process can ever hold (every
element of every startup trace) has the `"status"` and `"percent"` keys
of the right shape — the record is created with both and `dict.update`
never removes keys — so `/status` always succeeds; and the `details` map
it returns never contains the `"status"` or `"percent"` keys, which are
filtered out. -/
theorem status_endpoint_total (fail : Option LoadFailure) (msg : String) (p : PyDict)
    (hp : p ∈ startupTrace fail msg) :
    (statusEndpoint p).isSome = true ∧
    (∀ r, statusEndpoint p = some r →
      ∀ kv ∈ r.details, kv.1 ≠ "status" ∧ kv.1 ≠ "percent") := by
  constructor
  · rcases fail with - | f
    · simp only [startupTrace, List.mem_cons, List.not_mem_nil, or_false] at hp
      rcases hp with h | h | h | h | h <;> subst h <;> rfl
    · cases f <;>
        simp only [startupTrace, List.mem_cons, List.not_mem_nil, or_false] at hp
      · rcases hp with h | h | h <;> subst h <;> rfl
      · rcases hp with h | h | h | h <;> subst h <;> rfl
      · rcases hp with h | h | h | h | h <;> subst h <;> rfl
  · intro r hr kv hkv
    unfold statusEndpoint at hr
    split at hr
    · rename_i st pc heq1 heq2
      injection hr with hr
      subst hr
      obtain ⟨-, hpred⟩ := List.mem_filter.mp hkv
      simp only [decide_not, Bool.not_eq_true', decide_eq_false_iff_not] at hpred
      push_neg at hpred
      exact hpred
    · cases hr

/-- Witness for claim C10 at the error record of a failed startup, whose
details map is non-empty. -/
theorem status_endpoint_total_witness :
    errorState .embedder "boom" ∈ startupTrace (some .embedder) "boom" ∧
    ((statusEndpoint (errorState .embedder "boom")).isSome = true ∧
    (∀ r, statusEndpoint (errorState .embedder "boom") = some r →
      ∀ kv ∈ r.details, kv.1 ≠ "status" ∧ kv.1 ≠ "percent")) :=
  ⟨by decide,
   status_endpoint_total (some .embedder) "boom" (errorState .embedder "boom") (by decide)⟩

end App
